import Mathlib

/-!
# Verification of the attendance routes (src/routes/attendance.py)

Shallow embedding of the Flask attendance blueprint. The database session is
modelled as an explicit `DB` value threaded through each handler; SQLAlchemy
queries become list lookups (with default autoflush semantics: records staged
with `db.session.add` are visible to later queries in the same request), and
`db.session.commit()` is modelled by a `commitOk` flag — when it is `false`
the commit raises, the handler's `except` clause rolls the session back and
the original `DB` is returned unchanged.

Machine integers do not overflow in the modelled code paths, so ids are `Int`
(SQLAlchemy integer columns) and timestamps are abstract `Nat` instants.
-/

set_option maxHeartbeats 1000000

/-- A calendar date (year, month, day), the result of a successful
`datetime.strptime(s, '%Y-%m-%d').date()` call. -/
structure DateV where
  year : Nat
  month : Nat
  day : Nat
deriving DecidableEq, Repr

def isLeap (y : Nat) : Bool :=
  (y % 4 == 0 && y % 100 != 0) || (y % 400 == 0)

def daysInMonth (y m : Nat) : Nat :=
  if m = 2 then (if isLeap y then 29 else 28)
  else if m = 4 ∨ m = 6 ∨ m = 9 ∨ m = 11 then 30
  else 31

/-- Split a character list at each dash, keeping empty groups. -/
def splitDash : List Char → List (List Char)
  | [] => [[]]
  | c :: cs =>
    match splitDash cs with
    | [] => if c = '-' then [[], [c]] else [[c]]
    | g :: gs => if c = '-' then [] :: g :: gs else (c :: g) :: gs

/-- Digit-string to number; `none` when empty or a non-digit appears. -/
def digitsToNat : List Char → Option Nat
  | [] => none
  | cs =>
    if cs.all Char.isDigit then
      some (cs.foldl (fun n c => n * 10 + (c.toNat - 48)) 0)
    else none

/-- Modelled from the spec: the `date` precondition "must parse as an
unambiguous Y-M-D value" — Python's `datetime.strptime(s, '%Y-%m-%d')`
(standard-library code, not part of src/). Accepts `year-month-day` with
numeric components and a valid month/day combination, rejects anything else
(wrong shape, non-digits, out-of-range month or day). -/
def parseDate (s : String) : Option DateV :=
  match splitDash s.data with
  | [ys, ms, ds] =>
    match digitsToNat ys, digitsToNat ms, digitsToNat ds with
    | some y, some m, some d =>
      if 1 ≤ m ∧ m ≤ 12 ∧ 1 ≤ d ∧ d ≤ daysInMonth y m then some ⟨y, m, d⟩ else none
    | _, _, _ => none
  | _ => none

/-- Modelled from the spec (§3): one Attendance row. `models/attendance.py` is
not under src/; the attribute set is the one the routes read and write and the
spec lists: synthetic id, student/class references, date, present flag,
optional notes, recording user and instant. `to_dict` representations are
identified with the record itself (spec §6: a record serializes to its
identity and all attributes). -/
structure AttendanceRec where
  aid : Nat
  student_id : Int
  class_id : Int
  date : DateV
  present : Bool
  notes : Option String
  recorded_by : Int
  recorded_at : Nat
deriving DecidableEq, Repr

/-- The persistence store: existing Student ids, existing Class ids, the
attendance table, and the next synthetic id handed out on insert. -/
structure DB where
  students : List Int
  classes : List Int
  attendances : List AttendanceRec
  nextId : Nat
deriving DecidableEq, Repr

/-- The uniqueness key of an attendance record. -/
def keyOf (r : AttendanceRec) : Int × Int × DateV :=
  (r.student_id, r.class_id, r.date)

/-- `Attendance.query.filter_by(student_id=…, class_id=…, date=…)` predicate. -/
def tripleMatch (sid cid : Int) (d : DateV) (r : AttendanceRec) : Bool :=
  decide (r.student_id = sid ∧ r.class_id = cid ∧ r.date = d)

/-- In-place mutation of the object returned by `.first()`: rewrite the first
record satisfying `p`, leave everything else (including order) untouched. -/
def updateFirst (p : AttendanceRec → Bool) (f : AttendanceRec → AttendanceRec) :
    List AttendanceRec → List AttendanceRec
  | [] => []
  | r :: rs => if p r then f r :: rs else r :: updateFirst p f rs

/-- One element of the bulk request's `attendances` list. `student_id = none`
models an entry dict without a `student_id` key (its `attendance_data['student_id']`
raises `KeyError`); `present`/`notes` model `.get` with defaults. -/
structure EntryData where
  student_id : Option Int
  present : Option Bool
  notes : Option String
deriving DecidableEq, Repr

/-- Lines 143-146: overwrite `present`, `notes`, `recorded_by`, `recorded_at`
of an existing record from an entry. -/
def applyUpd (e : EntryData) (user : Int) (now : Nat) (r : AttendanceRec) : AttendanceRec :=
  { r with present := e.present.getD true, notes := e.notes,
           recorded_by := user, recorded_at := now }

/-- Lines 150-157: construct a fresh Attendance row. -/
def newRec (aid : Nat) (sid cid : Int) (d : DateV) (present : Bool) (notes : Option String)
    (user : Int) (now : Nat) : AttendanceRec :=
  ⟨aid, sid, cid, d, present, notes, user, now⟩

def studentNotFoundMsg (sid : Int) : String :=
  "Student " ++ toString sid ++ " not found"

/-- An ASCII single-quote character. -/
def squote : String := String.singleton (Char.ofNat 39)

/-- Line 162 for an entry without `student_id`: Python formats
`str(KeyError("student_id"))` as the quoted key name. -/
def unknownEntryMsg : String :=
  "Error processing student unknown: " ++ squote ++ "student_id" ++ squote

def processedMsg (n : Nat) : String :=
  "Processed " ++ toString n ++ " attendance records"

/-- The request context fixed for a whole bulk batch: resolved class id,
parsed date, acting user (`current_user.id`) and current instant. -/
structure BulkCtx where
  cid : Int
  d : DateV
  user : Int
  now : Nat
deriving DecidableEq, Repr

/-- Loop state of `create_bulk_attendance`: session database plus the
`created_records` and `errors` accumulators. -/
structure LoopState where
  db : DB
  created : List AttendanceRec
  errors : List String
deriving DecidableEq, Repr

/-- Lines 124-162: process one entry of the bulk batch. Total (the inner
`try/except` catches everything), so per-entry failure appends an error and
never aborts the batch. -/
def stepFull (c : BulkCtx) (st : LoopState) (e : EntryData) : LoopState :=
  match e.student_id with
  | none => { st with errors := st.errors ++ [unknownEntryMsg] }
  | some sid =>
    if sid ∈ st.db.students then
      match st.db.attendances.find? (tripleMatch sid c.cid c.d) with
      | some r =>
        { st with
          db := { st.db with
            attendances := updateFirst (tripleMatch sid c.cid c.d) (applyUpd e c.user c.now)
              st.db.attendances },
          created := st.created ++ [applyUpd e c.user c.now r] }
      | none =>
        { st with
          db := { st.db with
            attendances := st.db.attendances ++
              [newRec st.db.nextId sid c.cid c.d (e.present.getD true) e.notes c.user c.now],
            nextId := st.db.nextId + 1 },
          created := st.created ++
            [newRec st.db.nextId sid c.cid c.d (e.present.getD true) e.notes c.user c.now] }
    else { st with errors := st.errors ++ [studentNotFoundMsg sid] }

/-- The database effect of one entry, ignoring the accumulators. -/
def stepDB (c : BulkCtx) (db : DB) (e : EntryData) : DB :=
  match e.student_id with
  | none => db
  | some sid =>
    if sid ∈ db.students then
      match db.attendances.find? (tripleMatch sid c.cid c.d) with
      | some _ =>
        { db with
          attendances := updateFirst (tripleMatch sid c.cid c.d) (applyUpd e c.user c.now)
            db.attendances }
      | none =>
        { db with
          attendances := db.attendances ++
            [newRec db.nextId sid c.cid c.d (e.present.getD true) e.notes c.user c.now],
          nextId := db.nextId + 1 }
    else db

/-- The whole per-entry loop (lines 121-162). -/
def runEntries (c : BulkCtx) (db : DB) (es : List EntryData) : LoopState :=
  es.foldl (stepFull c) ⟨db, [], []⟩

/-- The JSON body of a bulk request; `none` models an absent key. -/
structure BulkRequest where
  class_id : Option Int
  date : Option String
  attendances : Option (List EntryData)
deriving DecidableEq, Repr

/-- Outcome of the bulk endpoint, by response shape. -/
inductive BulkResult where
  | missingField (field : String)
  | invalidDate
  | classNotFound
  | success (message : String) (created : List AttendanceRec) (errors : List String)
  | storageFailure
deriving DecidableEq, Repr

/-- HTTP status attached to each bulk outcome. -/
def BulkResult.status : BulkResult → Nat
  | .missingField _ => 400
  | .invalidDate => 400
  | .classNotFound => 404
  | .success _ _ _ => 201
  | .storageFailure => 500

/-- Lines 97-173: `POST /attendances/bulk`. Returns the post-request database
together with the response. A failing commit (`commitOk = false`) raises, is
caught by the outer `except`, and rolls the session back to the incoming
database. -/
def create_bulk_attendance (req : BulkRequest) (user : Int) (now : Nat) (commitOk : Bool)
    (db : DB) : DB × BulkResult :=
  match req.class_id with
  | none => (db, .missingField "class_id")
  | some cid =>
    match req.date with
    | none => (db, .missingField "date")
    | some ds =>
      match req.attendances with
      | none => (db, .missingField "attendances")
      | some es =>
        match parseDate ds with
        | none => (db, .invalidDate)
        | some d =>
          if cid ∈ db.classes then
            let st := runEntries ⟨cid, d, user, now⟩ db es
            if commitOk then
              (st.db, .success (processedMsg st.created.length) st.created st.errors)
            else (db, .storageFailure)
          else (db, .classNotFound)

/-- The JSON body of a single-record create request. -/
structure SingleRequest where
  student_id : Option Int
  class_id : Option Int
  date : Option String
  present : Option Bool
  notes : Option String
deriving DecidableEq, Repr

/-- Outcome of the single-record create endpoint. -/
inductive SingleResult where
  | missingField (field : String)
  | invalidDate
  | studentNotFound
  | classNotFound
  | duplicate
  | created (rec : AttendanceRec)
  | storageFailure
deriving DecidableEq, Repr

/-- HTTP status attached to each single-create outcome. -/
def SingleResult.status : SingleResult → Nat
  | .missingField _ => 400
  | .invalidDate => 400
  | .studentNotFound => 404
  | .classNotFound => 404
  | .duplicate => 400
  | .created _ => 201
  | .storageFailure => 500

/-- Lines 41-95: `POST /attendances` (single record). Rejects an existing
(student, class, date) triple with the duplicate error. -/
def create_attendance (req : SingleRequest) (user : Int) (now : Nat) (commitOk : Bool)
    (db : DB) : DB × SingleResult :=
  match req.student_id with
  | none => (db, .missingField "student_id")
  | some sid =>
    match req.class_id with
    | none => (db, .missingField "class_id")
    | some cid =>
      match req.date with
      | none => (db, .missingField "date")
      | some ds =>
        match parseDate ds with
        | none => (db, .invalidDate)
        | some d =>
          if sid ∈ db.students then
            if cid ∈ db.classes then
              if (db.attendances.find? (tripleMatch sid cid d)).isSome then
                (db, .duplicate)
              else
                if commitOk then
                  ({ db with
                     attendances := db.attendances ++
                       [newRec db.nextId sid cid d (req.present.getD true) req.notes user now],
                     nextId := db.nextId + 1 },
                   .created (newRec db.nextId sid cid d (req.present.getD true) req.notes user now))
                else (db, .storageFailure)
            else (db, .classNotFound)
          else (db, .studentNotFound)

/-- Outcome of the list endpoint. -/
inductive ListResult where
  | invalidDate
  | ok (rows : List AttendanceRec)
deriving DecidableEq, Repr

/-- Python truthiness of an optional integer query parameter: `None` and `0`
are falsy. -/
def truthyInt : Option Int → Bool
  | none => false
  | some x => decide (x ≠ 0)

/-- Python truthiness of an optional string query parameter: `None` and the
empty string are falsy. -/
def truthyStr : Option String → Bool
  | none => false
  | some s => decide (s ≠ "")

/-- Lines 10-39: `GET /attendances` with optional filters. A filter clause is
added only when the parameter is truthy. -/
def get_attendances (db : DB) (student_id class_id : Option Int) (date : Option String) :
    ListResult :=
  let q1 := if truthyInt student_id then
      db.attendances.filter (fun r => decide (r.student_id = student_id.getD 0))
    else db.attendances
  let q2 := if truthyInt class_id then
      q1.filter (fun r => decide (r.class_id = class_id.getD 0))
    else q1
  if truthyStr date then
    match parseDate (date.getD "") with
    | none => .invalidDate
    | some d => .ok (q2.filter (fun r => decide (r.date = d)))
  else .ok q2

/-- The JSON body of an update request. The outer option models key presence
(`'notes' in data`); for `notes` the inner option models a null value. -/
structure UpdateRequest where
  present : Option Bool
  notes : Option (Option String)
deriving DecidableEq, Repr

/-- Outcome of the update endpoint. -/
inductive UpdateResult where
  | notFound
  | ok (rec : AttendanceRec)
  | storageFailure
deriving DecidableEq, Repr

/-- `Attendance.query.get_or_404(attendance_id)` predicate. -/
def byId (aid : Nat) (r : AttendanceRec) : Bool :=
  decide (r.aid = aid)

/-- Lines 185-208: `PUT /attendances/<id>`. `present` and `notes` are copied
only when their key is present; `recorded_by` and `recorded_at` are always
overwritten. -/
def update_attendance (db : DB) (aid : Nat) (req : UpdateRequest) (user : Int) (now : Nat)
    (commitOk : Bool) : DB × UpdateResult :=
  match db.attendances.find? (byId aid) with
  | none => (db, .notFound)
  | some r =>
    let r2 : AttendanceRec :=
      { r with present := req.present.getD r.present, notes := req.notes.getD r.notes,
               recorded_by := user, recorded_at := now }
    if commitOk then
      ({ db with attendances := updateFirst (byId aid) (fun _ => r2) db.attendances }, .ok r2)
    else (db, .storageFailure)

/-- The §3 invariant: at most one attendance record per
(student_id, class_id, date) triple. -/
def UniqueTriples (l : List AttendanceRec) : Prop :=
  l.Pairwise (fun a b => keyOf a ≠ keyOf b)

/-! ## Basic lemmas about the embedded operations -/

theorem keyOf_applyUpd (e : EntryData) (user : Int) (now : Nat) (r : AttendanceRec) :
    keyOf (applyUpd e user now r) = keyOf r := rfl

theorem keyOf_newRec (aid : Nat) (sid cid : Int) (d : DateV) (pr : Bool) (no : Option String)
    (user : Int) (now : Nat) : keyOf (newRec aid sid cid d pr no user now) = (sid, cid, d) := rfl

theorem tripleMatch_iff (sid cid : Int) (d : DateV) (r : AttendanceRec) :
    tripleMatch sid cid d r = true ↔ keyOf r = (sid, cid, d) := by
  simp [tripleMatch, keyOf, Prod.ext_iff, and_assoc]

theorem tripleMatch_applyUpd (sid cid : Int) (d : DateV) (e : EntryData) (user : Int) (now : Nat)
    (r : AttendanceRec) :
    tripleMatch sid cid d (applyUpd e user now r) = tripleMatch sid cid d r := rfl

theorem updateFirst_length (p : AttendanceRec → Bool) (f : AttendanceRec → AttendanceRec)
    (l : List AttendanceRec) : (updateFirst p f l).length = l.length := by
  induction l with
  | nil => rfl
  | cons r rs ih =>
    unfold updateFirst
    split
    · rfl
    · simpa using ih

theorem updateFirst_map_keyOf (p : AttendanceRec → Bool) (f : AttendanceRec → AttendanceRec)
    (hf : ∀ r, keyOf (f r) = keyOf r) (l : List AttendanceRec) :
    (updateFirst p f l).map keyOf = l.map keyOf := by
  induction l with
  | nil => rfl
  | cons r rs ih =>
    unfold updateFirst
    split
    · simp [hf r]
    · simpa using ih

theorem updateFirst_fixed (p : AttendanceRec → Bool) (f : AttendanceRec → AttendanceRec)
    (l : List AttendanceRec) (r : AttendanceRec) (hfind : l.find? p = some r) (hr : f r = r) :
    updateFirst p f l = l := by
  induction l with
  | nil => simp at hfind
  | cons a rs ih =>
    unfold updateFirst
    by_cases hp : p a
    · rw [List.find?_cons_of_pos _ hp] at hfind
      injection hfind with h
      subst h
      simp [hp, hr]
    · rw [List.find?_cons_of_neg _ hp] at hfind
      simp [hp, ih hfind]

theorem find?_updateFirst_self (p : AttendanceRec → Bool) (f : AttendanceRec → AttendanceRec)
    (hf : ∀ r, p (f r) = p r) (l : List AttendanceRec) (r : AttendanceRec)
    (hfind : l.find? p = some r) : (updateFirst p f l).find? p = some (f r) := by
  induction l with
  | nil => simp at hfind
  | cons a rs ih =>
    unfold updateFirst
    by_cases hp : p a
    · rw [List.find?_cons_of_pos _ hp] at hfind
      injection hfind with h
      subst h
      simp [hp, List.find?_cons_of_pos, hf]
    · rw [List.find?_cons_of_neg _ hp] at hfind
      rw [if_neg hp]
      rw [List.find?_cons_of_neg _ hp]
      exact ih hfind

theorem find?_updateFirst_disjoint (p q : AttendanceRec → Bool) (f : AttendanceRec → AttendanceRec)
    (hpq : ∀ r, p r = true → q r = false) (hf : ∀ r, q (f r) = q r) (l : List AttendanceRec) :
    (updateFirst p f l).find? q = l.find? q := by
  induction l with
  | nil => rfl
  | cons a rs ih =>
    unfold updateFirst
    by_cases hp : p a
    · have hq : q a = false := hpq a hp
      rw [if_pos hp]
      rw [List.find?_cons_of_neg, List.find?_cons_of_neg]
      · simp [hq]
      · rw [hf a]
        simp [hq]
    · rw [if_neg hp]
      by_cases hq : q a
      · rw [List.find?_cons_of_pos _ hq, List.find?_cons_of_pos _ hq]
      · rw [List.find?_cons_of_neg _ hq, List.find?_cons_of_neg _ hq]
        exact ih

theorem uniqueTriples_updateFirst (p : AttendanceRec → Bool) (f : AttendanceRec → AttendanceRec)
    (hf : ∀ r, keyOf (f r) = keyOf r) (l : List AttendanceRec) (h : UniqueTriples l) :
    UniqueTriples (updateFirst p f l) := by
  induction l with
  | nil => exact h
  | cons a rs ih =>
    rw [UniqueTriples, List.pairwise_cons] at h
    unfold updateFirst
    split
    · rw [UniqueTriples, List.pairwise_cons]
      refine ⟨fun b hb => ?_, h.2⟩
      rw [hf a]
      exact h.1 b hb
    · rw [UniqueTriples, List.pairwise_cons]
      refine ⟨fun b hb => ?_, ih h.2⟩
      have hkb : keyOf b ∈ (updateFirst p f rs).map keyOf := List.mem_map_of_mem keyOf hb
      rw [updateFirst_map_keyOf p f hf rs] at hkb
      obtain ⟨c, hc, hkey⟩ := List.mem_map.mp hkb
      rw [← hkey]
      exact h.1 c hc

theorem uniqueTriples_append_new (l : List AttendanceRec) (n : AttendanceRec)
    (h : UniqueTriples l) (hn : ∀ r ∈ l, keyOf r ≠ keyOf n) : UniqueTriples (l ++ [n]) := by
  rw [UniqueTriples, List.pairwise_append]
  refine ⟨h, List.pairwise_singleton _ _, fun a ha b hb => ?_⟩
  rw [List.mem_singleton] at hb
  subst hb
  exact hn a ha

theorem stepDB_students (c : BulkCtx) (db : DB) (e : EntryData) :
    (stepDB c db e).students = db.students := by
  cases hsid : e.student_id with
  | none => simp [stepDB, hsid]
  | some sid =>
    by_cases hs : sid ∈ db.students
    · cases hfind : db.attendances.find? (tripleMatch sid c.cid c.d) with
      | none => simp [stepDB, hsid, hs, hfind]
      | some r => simp [stepDB, hsid, hs, hfind]
    · simp [stepDB, hsid, hs]

theorem stepDB_classes (c : BulkCtx) (db : DB) (e : EntryData) :
    (stepDB c db e).classes = db.classes := by
  cases hsid : e.student_id with
  | none => simp [stepDB, hsid]
  | some sid =>
    by_cases hs : sid ∈ db.students
    · cases hfind : db.attendances.find? (tripleMatch sid c.cid c.d) with
      | none => simp [stepDB, hsid, hs, hfind]
      | some r => simp [stepDB, hsid, hs, hfind]
    · simp [stepDB, hsid, hs]

theorem stepFull_db (c : BulkCtx) (st : LoopState) (e : EntryData) :
    (stepFull c st e).db = stepDB c st.db e := by
  cases hsid : e.student_id with
  | none => simp [stepFull, stepDB, hsid]
  | some sid =>
    by_cases hs : sid ∈ st.db.students
    · cases hfind : st.db.attendances.find? (tripleMatch sid c.cid c.d) with
      | none => simp [stepFull, stepDB, hsid, hs, hfind]
      | some r => simp [stepFull, stepDB, hsid, hs, hfind]
    · simp [stepFull, stepDB, hsid, hs]

theorem foldl_stepFull_db (c : BulkCtx) (es : List EntryData) (st : LoopState) :
    (es.foldl (stepFull c) st).db = es.foldl (stepDB c) st.db := by
  induction es generalizing st with
  | nil => rfl
  | cons e es ih => rw [List.foldl_cons, List.foldl_cons, ih, stepFull_db]

theorem stepDB_uniq (c : BulkCtx) (db : DB) (e : EntryData)
    (h : UniqueTriples db.attendances) : UniqueTriples (stepDB c db e).attendances := by
  cases hsid : e.student_id with
  | none => simpa [stepDB, hsid] using h
  | some sid =>
    by_cases hs : sid ∈ db.students
    · cases hfind : db.attendances.find? (tripleMatch sid c.cid c.d) with
      | some r =>
        have hgoal : UniqueTriples (updateFirst (tripleMatch sid c.cid c.d)
            (applyUpd e c.user c.now) db.attendances) :=
          uniqueTriples_updateFirst _ _ (fun r => keyOf_applyUpd e c.user c.now r) _ h
        simpa [stepDB, hsid, hs, hfind] using hgoal
      | none =>
        have hgoal : UniqueTriples (db.attendances ++
            [newRec db.nextId sid c.cid c.d (e.present.getD true) e.notes c.user c.now]) := by
          refine uniqueTriples_append_new _ _ h ?_
          intro r hr
          rw [keyOf_newRec]
          intro hk
          have hmatch : tripleMatch sid c.cid c.d r = true := (tripleMatch_iff _ _ _ _).mpr hk
          exact (List.find?_eq_none.mp hfind r hr) hmatch
        simpa [stepDB, hsid, hs, hfind] using hgoal
    · simpa [stepDB, hsid, hs] using h

theorem foldl_stepDB_uniq (c : BulkCtx) (es : List EntryData) (db : DB)
    (h : UniqueTriples db.attendances) :
    UniqueTriples (es.foldl (stepDB c) db).attendances := by
  induction es generalizing db with
  | nil => exact h
  | cons e es ih => exact ih _ (stepDB_uniq c db e h)

/-- C1: for every bulk upsert whose preconditions pass, at most one attendance
record per (student_id, class_id, date) triple exists after the commit; an
entry whose triple already has a record updates that record in place — the
table becomes exactly the `updateFirst` rewrite, so its length is unchanged
and no second record for the triple is created. -/
theorem bulk_preserves_unique_triples (req : BulkRequest) (user : Int) (now : Nat)
    (commitOk : Bool) (db : DB) (cid : Int) (ds : String) (es : List EntryData) (d : DateV)
    (hc : req.class_id = some cid) (hd : req.date = some ds) (he : req.attendances = some es)
    (hp : parseDate ds = some d) (hcl : cid ∈ db.classes)
    (hu : UniqueTriples db.attendances) :
    UniqueTriples (create_bulk_attendance req user now commitOk db).1.attendances ∧
    (∀ (c : BulkCtx) (db1 : DB) (e : EntryData) (sid : Int) (r : AttendanceRec),
      e.student_id = some sid → sid ∈ db1.students →
      db1.attendances.find? (tripleMatch sid c.cid c.d) = some r →
      (stepDB c db1 e).attendances =
        updateFirst (tripleMatch sid c.cid c.d) (applyUpd e c.user c.now) db1.attendances ∧
      (stepDB c db1 e).attendances.length = db1.attendances.length) := by
  constructor
  · simp only [create_bulk_attendance, hc, hd, he, hp]
    rw [if_pos hcl]
    cases commitOk with
    | false => exact hu
    | true =>
      show UniqueTriples (runEntries ⟨cid, d, user, now⟩ db es).db.attendances
      rw [runEntries, foldl_stepFull_db]
      exact foldl_stepDB_uniq _ es db hu
  · intro c db1 e sid r hsid hmem hfind
    have hstep : (stepDB c db1 e).attendances =
        updateFirst (tripleMatch sid c.cid c.d) (applyUpd e c.user c.now) db1.attendances := by
      simp only [stepDB, hsid, hfind]
      rw [if_pos hmem]
    refine ⟨hstep, ?_⟩
    rw [hstep, updateFirst_length]

/-! ## Counting lemmas for the accumulators -/

theorem stepFull_count (c : BulkCtx) (st : LoopState) (e : EntryData) :
    (stepFull c st e).created.length + (stepFull c st e).errors.length =
      st.created.length + st.errors.length + 1 := by
  cases hsid : e.student_id with
  | none => simp [stepFull, hsid]; omega
  | some sid =>
    by_cases hs : sid ∈ st.db.students
    · cases hfind : st.db.attendances.find? (tripleMatch sid c.cid c.d) with
      | none => simp [stepFull, hsid, hs, hfind]; omega
      | some r => simp [stepFull, hsid, hs, hfind]; omega
    · simp [stepFull, hsid, hs]; omega

theorem foldl_stepFull_count (c : BulkCtx) (es : List EntryData) (st : LoopState) :
    (es.foldl (stepFull c) st).created.length + (es.foldl (stepFull c) st).errors.length =
      st.created.length + st.errors.length + es.length := by
  induction es generalizing st with
  | nil => simp
  | cons e es ih =>
    rw [List.foldl_cons, ih, stepFull_count]
    simp
    omega

/-- Number of submitted entries whose student id resolves against the store
(the quantity the spec's counting property refers to). -/
def resolvableCount (db : DB) (es : List EntryData) : Nat :=
  (es.filter (fun e => match e.student_id with
    | some sid => decide (sid ∈ db.students)
    | none => false)).length

/-! ## Sample data for concrete witnesses -/

/-- The record of the spec §8 scenario: student 1, class 5, 2024-03-01. -/
def recA : AttendanceRec := ⟨1, 1, 5, ⟨2024, 3, 1⟩, true, none, 7, 50⟩

def dbA : DB := ⟨[1, 2], [5], [recA], 2⟩

def entA1 : EntryData := ⟨some 1, some false, some "late"⟩

def entA2 : EntryData := ⟨some 999, some true, none⟩

def reqA : BulkRequest := ⟨some 5, some "2024-03-01", some [entA1, entA2]⟩

/-! ## Claim theorems -/

/-- Concrete instance of the uniqueness-preservation theorem on the §8
scenario data. -/
theorem bulk_preserves_unique_triples_witness :
    UniqueTriples dbA.attendances ∧
    UniqueTriples (create_bulk_attendance reqA 7 100 true dbA).1.attendances :=
  ⟨by unfold UniqueTriples; decide,
   (bulk_preserves_unique_triples reqA 7 100 true dbA 5 "2024-03-01" [entA1, entA2]
      ⟨2024, 3, 1⟩ rfl rfl rfl (by decide) (by decide) (by unfold UniqueTriples; decide)).1⟩

/-- C4: a bulk request with a missing `class_id`, `date`, or `attendances`
field, an unparsable date, or an unknown class fails before any entry is
processed — the database is returned unchanged — with MissingField and
InvalidDate mapped to HTTP 400 and the missing class to HTTP 404. -/
theorem bulk_precondition_failures (req : BulkRequest) (user : Int) (now : Nat)
    (commitOk : Bool) (db : DB) :
    (req.class_id = none →
      create_bulk_attendance req user now commitOk db = (db, .missingField "class_id")) ∧
    (∀ cid, req.class_id = some cid → req.date = none →
      create_bulk_attendance req user now commitOk db = (db, .missingField "date")) ∧
    (∀ cid ds, req.class_id = some cid → req.date = some ds → req.attendances = none →
      create_bulk_attendance req user now commitOk db = (db, .missingField "attendances")) ∧
    (∀ cid ds es, req.class_id = some cid → req.date = some ds → req.attendances = some es →
      parseDate ds = none →
      create_bulk_attendance req user now commitOk db = (db, .invalidDate)) ∧
    (∀ cid ds es d, req.class_id = some cid → req.date = some ds → req.attendances = some es →
      parseDate ds = some d → cid ∉ db.classes →
      create_bulk_attendance req user now commitOk db = (db, .classNotFound)) ∧
    (∀ f, (BulkResult.missingField f).status = 400) ∧
    BulkResult.invalidDate.status = 400 ∧ BulkResult.classNotFound.status = 404 := by
  refine ⟨?_, ?_, ?_, ?_, ?_, fun f => rfl, rfl, rfl⟩
  · intro h
    simp [create_bulk_attendance, h]
  · intro cid h1 h2
    simp [create_bulk_attendance, h1, h2]
  · intro cid ds h1 h2 h3
    simp [create_bulk_attendance, h1, h2, h3]
  · intro cid ds es h1 h2 h3 h4
    simp [create_bulk_attendance, h1, h2, h3, h4]
  · intro cid ds es d h1 h2 h3 h4 h5
    simp [create_bulk_attendance, h1, h2, h3, h4, h5]

/-- Concrete instance of the precondition-failure theorem: the §8 wrongly
formatted date "03-01-2024" is rejected with InvalidDate and no change. -/
theorem bulk_precondition_failures_witness :
    parseDate "03-01-2024" = none ∧
    create_bulk_attendance ⟨some 5, some "03-01-2024", some [entA1]⟩ 7 100 true dbA =
      (dbA, .invalidDate) :=
  ⟨by decide,
   (bulk_precondition_failures ⟨some 5, some "03-01-2024", some [entA1]⟩ 7 100 true
      dbA).2.2.2.1 5 "03-01-2024" [entA1] rfl rfl rfl (by decide)⟩

/-- C5: when the final commit fails, the whole batch is rolled back — the
returned database is the incoming one, pre-existing records included — and the
operation reports a StorageFailure (HTTP 500) instead of a success payload. -/
theorem bulk_commit_failure_rollback (req : BulkRequest) (user : Int) (now : Nat) (db : DB)
    (cid : Int) (ds : String) (es : List EntryData) (d : DateV)
    (hc : req.class_id = some cid) (hd : req.date = some ds) (he : req.attendances = some es)
    (hp : parseDate ds = some d) (hcl : cid ∈ db.classes) :
    create_bulk_attendance req user now false db = (db, .storageFailure) ∧
    BulkResult.storageFailure.status = 500 := by
  constructor
  · simp [create_bulk_attendance, hc, hd, he, hp, hcl]
  · rfl

/-- Concrete instance of the commit-failure theorem: the batch would update
one record and insert another, yet the returned database is `dbA` itself. -/
theorem bulk_commit_failure_rollback_witness :
    parseDate "2024-03-01" = some ⟨2024, 3, 1⟩ ∧ (5 : Int) ∈ dbA.classes ∧
    create_bulk_attendance reqA 7 100 false dbA = (dbA, .storageFailure) :=
  ⟨by decide, by decide,
   (bulk_commit_failure_rollback reqA 7 100 dbA 5 "2024-03-01" [entA1, entA2] ⟨2024, 3, 1⟩
      rfl rfl rfl (by decide) (by decide)).1⟩

/-- C6: per-entry failure never aborts the batch: an entry whose student id
does not resolve only appends "Student {id} not found"; an entry without a
student id only appends the "unknown" error; in both cases the database and
created list are untouched, and the fold continues with the remaining
entries. -/
theorem bulk_entry_failure_isolated (c : BulkCtx) (st : LoopState) (e : EntryData) :
    (∀ sid, e.student_id = some sid → sid ∉ st.db.students →
      stepFull c st e = { st with errors := st.errors ++ [studentNotFoundMsg sid] }) ∧
    (e.student_id = none →
      stepFull c st e = { st with errors := st.errors ++ [unknownEntryMsg] }) ∧
    (∀ (es1 es2 : List EntryData) (st0 : LoopState),
      (es1 ++ e :: es2).foldl (stepFull c) st0 =
        es2.foldl (stepFull c) (stepFull c (es1.foldl (stepFull c) st0) e)) := by
  refine ⟨?_, ?_, ?_⟩
  · intro sid h1 h2
    simp [stepFull, h1, h2]
  · intro h1
    simp [stepFull, h1]
  · intro es1 es2 st0
    rw [List.foldl_append, List.foldl_cons]

/-- Concrete instance of the per-entry isolation theorem: the unknown student
999 contributes exactly one error and nothing else. -/
theorem bulk_entry_failure_isolated_witness :
    (999 : Int) ∉ dbA.students ∧
    stepFull ⟨5, ⟨2024, 3, 1⟩, 7, 100⟩ ⟨dbA, [], []⟩ entA2 =
      ⟨dbA, [], [studentNotFoundMsg 999]⟩ :=
  ⟨by decide,
   (bulk_entry_failure_isolated ⟨5, ⟨2024, 3, 1⟩, 7, 100⟩ ⟨dbA, [], []⟩ entA2).1 999 rfl
     (by decide)⟩

/-- C3 as frozen is false on the code: in the §8 scenario (students 1 and 999
submitted, 999 unknown) the success payload has one record and one error, so
errors + records = 2, while only one submitted entry has a resolvable
student. -/
theorem bulk_counts_counterexample :
    (create_bulk_attendance reqA 7 100 true dbA).2 =
      BulkResult.success (processedMsg 1)
        [⟨1, 1, 5, ⟨2024, 3, 1⟩, false, some "late", 7, 100⟩] [studentNotFoundMsg 999] ∧
    resolvableCount dbA (reqA.attendances.getD []) = 1 ∧
    [studentNotFoundMsg 999].length +
        [(⟨1, 1, 5, ⟨2024, 3, 1⟩, false, some "late", 7, 100⟩ : AttendanceRec)].length ≠
      resolvableCount dbA (reqA.attendances.getD []) := by
  refine ⟨by decide, by decide, by decide⟩

/-- C3 amended: for every valid batch, errors + records equals the TOTAL
number of submitted entries (each entry contributes exactly one of the two);
entries whose student does not exist contribute only to the errors list. -/
theorem bulk_counts_amended (req : BulkRequest) (user : Int) (now : Nat) (db : DB)
    (cid : Int) (ds : String) (es : List EntryData) (d : DateV)
    (hc : req.class_id = some cid) (hd : req.date = some ds) (he : req.attendances = some es)
    (hp : parseDate ds = some d) (hcl : cid ∈ db.classes) :
    ((create_bulk_attendance req user now true db).2 =
      .success (processedMsg (runEntries ⟨cid, d, user, now⟩ db es).created.length)
        (runEntries ⟨cid, d, user, now⟩ db es).created
        (runEntries ⟨cid, d, user, now⟩ db es).errors) ∧
    ((runEntries ⟨cid, d, user, now⟩ db es).errors.length +
        (runEntries ⟨cid, d, user, now⟩ db es).created.length = es.length) ∧
    (∀ (st : LoopState) (e : EntryData) (sid : Int), e.student_id = some sid →
      sid ∉ st.db.students →
      (stepFull ⟨cid, d, user, now⟩ st e).created = st.created ∧
      (stepFull ⟨cid, d, user, now⟩ st e).errors = st.errors ++ [studentNotFoundMsg sid]) := by
  refine ⟨?_, ?_, ?_⟩
  · simp [create_bulk_attendance, hc, hd, he, hp, hcl]
  · have h := foldl_stepFull_count ⟨cid, d, user, now⟩ es ⟨db, [], []⟩
    simp only [List.length_nil] at h
    rw [runEntries]
    omega
  · intro st e sid h1 h2
    constructor <;> simp [stepFull, h1, h2]

/-- Concrete instance of the amended counting theorem on the §8 scenario. -/
theorem bulk_counts_amended_witness :
    (runEntries ⟨5, ⟨2024, 3, 1⟩, 7, 100⟩ dbA [entA1, entA2]).errors.length +
      (runEntries ⟨5, ⟨2024, 3, 1⟩, 7, 100⟩ dbA [entA1, entA2]).created.length = 2 :=
  (bulk_counts_amended reqA 7 100 dbA 5 "2024-03-01" [entA1, entA2] ⟨2024, 3, 1⟩
    rfl rfl rfl (by decide) (by decide)).2.1

/-- C7: the single-record create and the bulk path treat an existing
(student_id, class_id, date) triple asymmetrically: single create answers
with the duplicate error (HTTP 400) and leaves the database untouched for
every commit outcome, while the bulk path silently rewrites the existing
record in place and reports success (HTTP 201). -/
theorem create_bulk_duplicate_asymmetry (db : DB) (user : Int) (now : Nat)
    (sid cid : Int) (ds : String) (d : DateV) (pr : Option Bool) (no : Option String)
    (r : AttendanceRec)
    (hp : parseDate ds = some d) (hs : sid ∈ db.students) (hc : cid ∈ db.classes)
    (hfind : db.attendances.find? (tripleMatch sid cid d) = some r) :
    (∀ commitOk, create_attendance ⟨some sid, some cid, some ds, pr, no⟩ user now commitOk db =
      (db, .duplicate)) ∧
    SingleResult.duplicate.status = 400 ∧
    create_bulk_attendance ⟨some cid, some ds, some [⟨some sid, pr, no⟩]⟩ user now true db =
      ({ db with
         attendances := updateFirst (tripleMatch sid cid d) (applyUpd ⟨some sid, pr, no⟩ user now)
           db.attendances },
       .success (processedMsg 1) [applyUpd ⟨some sid, pr, no⟩ user now r] []) ∧
    (BulkResult.success (processedMsg 1) [applyUpd ⟨some sid, pr, no⟩ user now r] []).status =
      201 := by
  refine ⟨?_, rfl, ?_, rfl⟩
  · intro commitOk
    simp [create_attendance, hp, hs, hc, hfind]
  · simp [create_bulk_attendance, hp, hc, runEntries, stepFull, hs, hfind]

/-- Concrete instance of the asymmetry theorem: resubmitting student 1's
existing record is a 400 duplicate on the single endpoint but an in-place
update on the bulk endpoint. -/
theorem create_bulk_duplicate_asymmetry_witness :
    dbA.attendances.find? (tripleMatch 1 5 ⟨2024, 3, 1⟩) = some recA ∧
    create_attendance ⟨some 1, some 5, some "2024-03-01", some false, some "late"⟩ 7 100 true
      dbA = (dbA, .duplicate) :=
  ⟨by decide,
   (create_bulk_duplicate_asymmetry dbA 7 100 1 5 "2024-03-01" ⟨2024, 3, 1⟩ (some false)
      (some "late") recA (by decide) (by decide) (by decide) (by decide)).1 true⟩

/-- C8: when every precondition passes and the commit succeeds, the bulk
endpoint answers HTTP 201 with the processed-record count message, the list
of created/updated representations and the per-entry error list — and the
error list can be non-empty on overall success (partial failure is a
reported outcome, not an exception). -/
theorem bulk_success_shape (req : BulkRequest) (user : Int) (now : Nat) (db : DB)
    (cid : Int) (ds : String) (es : List EntryData) (d : DateV)
    (hc : req.class_id = some cid) (hd : req.date = some ds) (he : req.attendances = some es)
    (hp : parseDate ds = some d) (hcl : cid ∈ db.classes) :
    (create_bulk_attendance req user now true db =
      ((runEntries ⟨cid, d, user, now⟩ db es).db,
       .success (processedMsg (runEntries ⟨cid, d, user, now⟩ db es).created.length)
         (runEntries ⟨cid, d, user, now⟩ db es).created
         (runEntries ⟨cid, d, user, now⟩ db es).errors)) ∧
    (∀ m cr er, (BulkResult.success m cr er).status = 201) ∧
    ((create_bulk_attendance reqA 7 100 true dbA).2 =
      BulkResult.success (processedMsg 1)
        [⟨1, 1, 5, ⟨2024, 3, 1⟩, false, some "late", 7, 100⟩] [studentNotFoundMsg 999] ∧
      [studentNotFoundMsg 999] ≠ ([] : List String)) := by
  refine ⟨?_, fun m cr er => rfl, by decide, by decide⟩
  simp [create_bulk_attendance, hc, hd, he, hp, hcl]

/-- Concrete instance of the success-shape theorem on the §8 scenario. -/
theorem bulk_success_shape_witness :
    create_bulk_attendance reqA 7 100 true dbA =
      ((runEntries ⟨5, ⟨2024, 3, 1⟩, 7, 100⟩ dbA [entA1, entA2]).db,
       .success (processedMsg (runEntries ⟨5, ⟨2024, 3, 1⟩, 7, 100⟩ dbA
           [entA1, entA2]).created.length)
         (runEntries ⟨5, ⟨2024, 3, 1⟩, 7, 100⟩ dbA [entA1, entA2]).created
         (runEntries ⟨5, ⟨2024, 3, 1⟩, 7, 100⟩ dbA [entA1, entA2]).errors) :=
  (bulk_success_shape reqA 7 100 dbA 5 "2024-03-01" [entA1, entA2] ⟨2024, 3, 1⟩
    rfl rfl rfl (by decide) (by decide)).1

/-- C9: in the list endpoint a `student_id` or `class_id` parameter whose
value is 0 is falsy in Python, so the filter is skipped exactly as if the
parameter were absent. -/
theorem list_zero_filter_ignored (db : DB) (student_id class_id : Option Int)
    (date : Option String) :
    get_attendances db (some 0) class_id date = get_attendances db none class_id date ∧
    get_attendances db student_id (some 0) date = get_attendances db student_id none date := by
  constructor <;> rfl

theorem updateFirst_map_keyOf_of_find (p : AttendanceRec → Bool)
    (f : AttendanceRec → AttendanceRec) (l : List AttendanceRec) (r : AttendanceRec)
    (hfind : l.find? p = some r) (hf : keyOf (f r) = keyOf r) :
    (updateFirst p f l).map keyOf = l.map keyOf := by
  induction l with
  | nil => simp at hfind
  | cons a rs ih =>
    unfold updateFirst
    by_cases hp : p a
    · rw [List.find?_cons_of_pos _ hp] at hfind
      injection hfind with h
      subst h
      simp [hp, hf]
    · rw [List.find?_cons_of_neg _ hp] at hfind
      simp [hp, ih hfind]

/-- C10: a successful single-record update always stamps `recorded_by` with
the acting user and `recorded_at` with the current instant — also when the
body carries neither `present` nor `notes` — while `student_id`, `class_id`
and `date` of every stored record are left untouched. -/
theorem update_frame_and_timestamps (db : DB) (aid : Nat) (req : UpdateRequest)
    (user : Int) (now : Nat) (r : AttendanceRec)
    (hfind : db.attendances.find? (byId aid) = some r) :
    ((update_attendance db aid req user now true).2 =
      .ok { r with present := req.present.getD r.present, notes := req.notes.getD r.notes,
                   recorded_by := user, recorded_at := now }) ∧
    (∀ r2, (update_attendance db aid req user now true).2 = .ok r2 →
      r2.recorded_by = user ∧ r2.recorded_at = now ∧
      r2.student_id = r.student_id ∧ r2.class_id = r.class_id ∧ r2.date = r.date) ∧
    ((update_attendance db aid req user now true).1.attendances.map keyOf =
      db.attendances.map keyOf) := by
  have hres : update_attendance db aid req user now true =
      ({ db with
         attendances := updateFirst (byId aid)
           (fun _ => { r with present := req.present.getD r.present,
                              notes := req.notes.getD r.notes,
                              recorded_by := user, recorded_at := now }) db.attendances },
       .ok { r with present := req.present.getD r.present, notes := req.notes.getD r.notes,
                    recorded_by := user, recorded_at := now }) := by
    simp [update_attendance, hfind]
  refine ⟨by rw [hres], ?_, ?_⟩
  · intro r2 h2
    rw [hres] at h2
    injection h2 with h2
    subst h2
    exact ⟨rfl, rfl, rfl, rfl, rfl⟩
  · rw [hres]
    exact updateFirst_map_keyOf_of_find _ _ _ r hfind rfl

/-- Concrete instance of the update theorem with an empty body: only
`recorded_by`/`recorded_at` change. -/
theorem update_frame_and_timestamps_witness :
    dbA.attendances.find? (byId 1) = some recA ∧
    (update_attendance dbA 1 ⟨none, none⟩ 9 200 true).2 =
      .ok { recA with present := recA.present, notes := recA.notes,
                      recorded_by := 9, recorded_at := 200 } :=
  ⟨by decide, (update_frame_and_timestamps dbA 1 ⟨none, none⟩ 9 200 recA (by decide)).1⟩

/-! ## Idempotence of bulk resubmission -/

theorem applyUpd_idem (e : EntryData) (user : Int) (now : Nat) (r : AttendanceRec) :
    applyUpd e user now (applyUpd e user now r) = applyUpd e user now r := rfl

/-- Agreement on the fields `applyUpd` never touches. -/
def MutAgree (r1 r2 : AttendanceRec) : Prop :=
  r1.aid = r2.aid ∧ r1.student_id = r2.student_id ∧ r1.class_id = r2.class_id ∧
    r1.date = r2.date

theorem applyUpd_congr (e : EntryData) (user : Int) (now : Nat) (r1 r2 : AttendanceRec)
    (h : MutAgree r1 r2) : applyUpd e user now r1 = applyUpd e user now r2 := by
  obtain ⟨h1, h2, h3, h4⟩ := h
  cases r1
  cases r2
  simp only [applyUpd]
  simp_all

theorem tripleMatch_congr (sid cid : Int) (d : DateV) (r1 r2 : AttendanceRec)
    (h : MutAgree r1 r2) : tripleMatch sid cid d r1 = tripleMatch sid cid d r2 := by
  obtain ⟨h1, h2, h3, h4⟩ := h
  simp [tripleMatch, h2, h3, h4]

theorem tripleMatch_ne_student (sid sid2 cid : Int) (d : DateV) (x : AttendanceRec)
    (hne : sid ≠ sid2) (h : tripleMatch sid2 cid d x = true) :
    tripleMatch sid cid d x = false := by
  rw [tripleMatch_iff] at h
  rw [keyOf] at h
  simp only [tripleMatch, decide_eq_false_iff_not]
  intro hc
  obtain ⟨hc1, _, _⟩ := hc
  have hx2 : x.student_id = sid2 := congrArg Prod.fst h
  exact hne (hc1.symm.trans hx2)

theorem find?_decomp (p : AttendanceRec → Bool) (l : List AttendanceRec) (r : AttendanceRec)
    (h : l.find? p = some r) :
    ∃ a b, l = a ++ r :: b ∧ ∀ x ∈ a, p x = false := by
  induction l with
  | nil => simp at h
  | cons x xs ih =>
    by_cases hp : p x
    · rw [List.find?_cons_of_pos _ hp] at h
      injection h with h
      subst h
      exact ⟨[], xs, rfl, by simp⟩
    · rw [List.find?_cons_of_neg _ hp] at h
      obtain ⟨a, b, hl, hfree⟩ := ih h
      refine ⟨x :: a, b, by rw [hl]; rfl, ?_⟩
      intro y hy
      rcases List.mem_cons.mp hy with hy | hy
      · subst hy
        simpa using hp
      · exact hfree y hy

theorem find?_prefix_free (p : AttendanceRec → Bool) (a b : List AttendanceRec)
    (r : AttendanceRec) (hfree : ∀ x ∈ a, p x = false) (hr : p r = true) :
    (a ++ r :: b).find? p = some r := by
  induction a with
  | nil => simpa using List.find?_cons_of_pos b hr
  | cons x xs ih =>
    have hx : ¬ p x = true := by
      rw [hfree x (List.mem_cons_self x xs)]
      simp
    rw [List.cons_append, List.find?_cons_of_neg _ hx]
    exact ih (fun y hy => hfree y (List.mem_cons_of_mem x hy))

theorem find?_middle_congr (p : AttendanceRec → Bool) (a b : List AttendanceRec)
    (r1 r2 : AttendanceRec) (h1 : p r1 = false) (h2 : p r2 = false) :
    (a ++ r1 :: b).find? p = (a ++ r2 :: b).find? p := by
  induction a with
  | nil =>
    simp only [List.nil_append]
    rw [List.find?_cons_of_neg, List.find?_cons_of_neg]
    · simp [h2]
    · simp [h1]
  | cons x xs ih =>
    by_cases hx : p x
    · rw [List.cons_append, List.cons_append, List.find?_cons_of_pos _ hx,
        List.find?_cons_of_pos _ hx]
    · rw [List.cons_append, List.cons_append, List.find?_cons_of_neg _ hx,
        List.find?_cons_of_neg _ hx]
      exact ih

theorem updateFirst_prefix_free (p : AttendanceRec → Bool) (f : AttendanceRec → AttendanceRec)
    (a b : List AttendanceRec) (r : AttendanceRec)
    (hfree : ∀ x ∈ a, p x = false) (hr : p r = true) :
    updateFirst p f (a ++ r :: b) = a ++ f r :: b := by
  induction a with
  | nil =>
    simp only [List.nil_append]
    unfold updateFirst
    rw [if_pos hr]
  | cons x xs ih =>
    have hx : ¬ p x = true := by
      rw [hfree x (List.mem_cons_self x xs)]
      simp
    rw [List.cons_append]
    unfold updateFirst
    rw [if_neg hx, ih (fun y hy => hfree y (List.mem_cons_of_mem x hy))]
    rfl

theorem updateFirst_cons_pos (p : AttendanceRec → Bool) (f : AttendanceRec → AttendanceRec)
    (r : AttendanceRec) (rs : List AttendanceRec) (hp : p r = true) :
    updateFirst p f (r :: rs) = f r :: rs := by
  show (if p r = true then f r :: rs else r :: updateFirst p f rs) = f r :: rs
  rw [if_pos hp]

theorem updateFirst_cons_neg (p : AttendanceRec → Bool) (f : AttendanceRec → AttendanceRec)
    (r : AttendanceRec) (rs : List AttendanceRec) (hp : ¬ p r = true) :
    updateFirst p f (r :: rs) = r :: updateFirst p f rs := by
  show (if p r = true then f r :: rs else r :: updateFirst p f rs) = r :: updateFirst p f rs
  rw [if_neg hp]

theorem updateFirst_append_split (p : AttendanceRec → Bool) (f : AttendanceRec → AttendanceRec)
    (l1 l2 : List AttendanceRec) :
    updateFirst p f (l1 ++ l2) =
      if (l1.find? p).isSome then updateFirst p f l1 ++ l2 else l1 ++ updateFirst p f l2 := by
  induction l1 with
  | nil => simp [updateFirst]
  | cons x xs ih =>
    by_cases hx : p x
    · rw [List.cons_append, updateFirst_cons_pos p f _ _ hx, List.find?_cons_of_pos _ hx]
      simp only [Option.isSome_some, if_true]
      rw [updateFirst_cons_pos p f _ _ hx, List.cons_append]
    · rw [List.cons_append, updateFirst_cons_neg p f _ _ hx, ih, List.find?_cons_of_neg _ hx]
      by_cases hs : (xs.find? p).isSome
      · rw [if_pos hs, if_pos hs, updateFirst_cons_neg p f _ _ hx, List.cons_append]
      · rw [if_neg hs, if_neg hs, List.cons_append]

theorem foldl_stepDB_students (c : BulkCtx) (es : List EntryData) (db : DB) :
    (es.foldl (stepDB c) db).students = db.students := by
  induction es generalizing db with
  | nil => rfl
  | cons e es ih => rw [List.foldl_cons, ih, stepDB_students]

theorem foldl_stepDB_classes (c : BulkCtx) (es : List EntryData) (db : DB) :
    (es.foldl (stepDB c) db).classes = db.classes := by
  induction es generalizing db with
  | nil => rfl
  | cons e es ih => rw [List.foldl_cons, ih, stepDB_classes]

theorem stepDB_att_update (c : BulkCtx) (db : DB) (e : EntryData) (sid : Int)
    (r : AttendanceRec) (hsid : e.student_id = some sid) (hs : sid ∈ db.students)
    (hfind : db.attendances.find? (tripleMatch sid c.cid c.d) = some r) :
    stepDB c db e = { db with
      attendances := updateFirst (tripleMatch sid c.cid c.d) (applyUpd e c.user c.now)
        db.attendances } := by
  simp [stepDB, hsid, hs, hfind]

theorem stepDB_att_insert (c : BulkCtx) (db : DB) (e : EntryData) (sid : Int)
    (hsid : e.student_id = some sid) (hs : sid ∈ db.students)
    (hfind : db.attendances.find? (tripleMatch sid c.cid c.d) = none) :
    stepDB c db e = { db with
      attendances := db.attendances ++
        [newRec db.nextId sid c.cid c.d (e.present.getD true) e.notes c.user c.now],
      nextId := db.nextId + 1 } := by
  simp [stepDB, hsid, hs, hfind]

theorem stepDB_skip (c : BulkCtx) (db : DB) (e : EntryData)
    (h : ∀ sid, e.student_id = some sid → sid ∉ db.students) : stepDB c db e = db := by
  cases hsid : e.student_id with
  | none => simp [stepDB, hsid]
  | some sid => simp [stepDB, hsid, h sid hsid]

theorem tripleMatch_newRec (sid cid : Int) (d : DateV) (aid : Nat) (pr : Bool)
    (no : Option String) (user : Int) (now : Nat) :
    tripleMatch sid cid d (newRec aid sid cid d pr no user now) = true := by
  simp [tripleMatch, newRec]

theorem stepDB_keys_mono (c : BulkCtx) (db : DB) (e : EntryData) (k : Int × Int × DateV)
    (h : k ∈ db.attendances.map keyOf) : k ∈ (stepDB c db e).attendances.map keyOf := by
  cases hsid : e.student_id with
  | none => simpa [stepDB, hsid] using h
  | some sid =>
    by_cases hs : sid ∈ db.students
    · cases hfind : db.attendances.find? (tripleMatch sid c.cid c.d) with
      | some r =>
        rw [stepDB_att_update c db e sid r hsid hs hfind]
        show k ∈ (updateFirst _ _ db.attendances).map keyOf
        rw [updateFirst_map_keyOf _ _ (fun x => keyOf_applyUpd e c.user c.now x)]
        exact h
      | none =>
        rw [stepDB_att_insert c db e sid hsid hs hfind]
        show k ∈ (db.attendances ++ _).map keyOf
        rw [List.map_append]
        exact List.mem_append_left _ h
    · simpa [stepDB, hsid, hs] using h

theorem foldl_stepDB_keys_mono (c : BulkCtx) (es : List EntryData) (db : DB)
    (k : Int × Int × DateV) (h : k ∈ db.attendances.map keyOf) :
    k ∈ (es.foldl (stepDB c) db).attendances.map keyOf := by
  induction es generalizing db with
  | nil => exact h
  | cons e es ih => exact ih _ (stepDB_keys_mono c db e k h)

/-- The record matching `sid` already carries exactly the values entry `e`
would write. -/
def FixedAt (c : BulkCtx) (e : EntryData) (sid : Int) (db : DB) : Prop :=
  ∃ r, db.attendances.find? (tripleMatch sid c.cid c.d) = some r ∧
    applyUpd e c.user c.now r = r

theorem stepDB_makes_fixed (c : BulkCtx) (db : DB) (e : EntryData) (sid : Int)
    (hsid : e.student_id = some sid) (hs : sid ∈ db.students) :
    FixedAt c e sid (stepDB c db e) := by
  cases hfind : db.attendances.find? (tripleMatch sid c.cid c.d) with
  | some r =>
    rw [stepDB_att_update c db e sid r hsid hs hfind]
    refine ⟨applyUpd e c.user c.now r, ?_, applyUpd_idem e c.user c.now r⟩
    exact find?_updateFirst_self _ _ (fun x => tripleMatch_applyUpd sid c.cid c.d e c.user c.now x)
      _ _ hfind
  | none =>
    rw [stepDB_att_insert c db e sid hsid hs hfind]
    refine ⟨newRec db.nextId sid c.cid c.d (e.present.getD true) e.notes c.user c.now, ?_, rfl⟩
    show (db.attendances ++ _).find? _ = _
    rw [List.find?_append, hfind]
    rw [List.find?_cons_of_pos _ (tripleMatch_newRec sid c.cid c.d db.nextId
      (e.present.getD true) e.notes c.user c.now)]
    rfl

theorem stepDB_keeps_fixed (c : BulkCtx) (db : DB) (e2 e : EntryData) (sid : Int)
    (hne : e2.student_id ≠ some sid) (h : FixedAt c e sid db) :
    FixedAt c e sid (stepDB c db e2) := by
  obtain ⟨r, hfind, hfix⟩ := h
  cases hsid2 : e2.student_id with
  | none => exact ⟨r, by simpa [stepDB, hsid2] using hfind, hfix⟩
  | some sid2 =>
    have hss : sid2 ≠ sid := fun hh => hne (by rw [hsid2, hh])
    by_cases hs : sid2 ∈ db.students
    · cases hfind2 : db.attendances.find? (tripleMatch sid2 c.cid c.d) with
      | some q =>
        rw [stepDB_att_update c db e2 sid2 q hsid2 hs hfind2]
        refine ⟨r, ?_, hfix⟩
        show (updateFirst _ _ db.attendances).find? _ = _
        rw [find?_updateFirst_disjoint _ _ _ ?_ ?_]
        · exact hfind
        · intro x hx
          exact tripleMatch_ne_student sid sid2 c.cid c.d x (fun hh => hss hh.symm) hx
        · intro x
          exact tripleMatch_applyUpd sid c.cid c.d e2 c.user c.now x
      | none =>
        rw [stepDB_att_insert c db e2 sid2 hsid2 hs hfind2]
        refine ⟨r, ?_, hfix⟩
        show (db.attendances ++ _).find? _ = _
        rw [List.find?_append, hfind]
        rfl
    · exact ⟨r, by simpa [stepDB, hsid2, hs] using hfind, hfix⟩

theorem foldl_keeps_fixed (c : BulkCtx) (s : List EntryData) (e : EntryData) (sid : Int)
    (hall : ∀ e2 ∈ s, e2.student_id ≠ some sid) (db : DB) (h : FixedAt c e sid db) :
    FixedAt c e sid (s.foldl (stepDB c) db) := by
  induction s generalizing db with
  | nil => exact h
  | cons e2 s' ih =>
    rw [List.foldl_cons]
    exact ih (fun x hx => hall x (List.mem_cons_of_mem e2 hx)) _
      (stepDB_keeps_fixed c db e2 e sid (hall e2 (List.mem_cons_self e2 s')) h)

theorem stepDB_fixed_id (c : BulkCtx) (db : DB) (e : EntryData) (sid : Int)
    (hsid : e.student_id = some sid) (h : FixedAt c e sid db) : stepDB c db e = db := by
  obtain ⟨r, hfind, hfix⟩ := h
  by_cases hs : sid ∈ db.students
  · have hup : updateFirst (tripleMatch sid c.cid c.d) (applyUpd e c.user c.now)
        db.attendances = db.attendances := updateFirst_fixed _ _ _ _ hfind hfix
    rw [stepDB_att_update c db e sid r hsid hs hfind, hup]
  · simp [stepDB, hsid, hs]

theorem tripleMatch_eq_of_keyOf (sid cid : Int) (d : DateV) (x y : AttendanceRec)
    (h : keyOf x = keyOf y) : tripleMatch sid cid d x = tripleMatch sid cid d y := by
  by_cases hy : keyOf y = (sid, cid, d)
  · rw [(tripleMatch_iff sid cid d x).mpr (h.trans hy), (tripleMatch_iff sid cid d y).mpr hy]
  · have hx : ¬ tripleMatch sid cid d x = true := fun hh =>
      hy (h.symm.trans ((tripleMatch_iff sid cid d x).mp hh))
    have hyb : ¬ tripleMatch sid cid d y = true := fun hh =>
      hy ((tripleMatch_iff sid cid d y).mp hh)
    rw [Bool.not_eq_true] at hx hyb
    rw [hx, hyb]

theorem free_updateFirst (sid cid : Int) (d : DateV) (p2 : AttendanceRec → Bool)
    (f : AttendanceRec → AttendanceRec) (hf : ∀ y, keyOf (f y) = keyOf y)
    (a : List AttendanceRec) (hfree : ∀ x ∈ a, tripleMatch sid cid d x = false) :
    ∀ x ∈ updateFirst p2 f a, tripleMatch sid cid d x = false := by
  intro x hx
  have hkx : keyOf x ∈ (updateFirst p2 f a).map keyOf := List.mem_map_of_mem keyOf hx
  rw [updateFirst_map_keyOf p2 f hf a] at hkx
  obtain ⟨y, hy, hk⟩ := List.mem_map.mp hkx
  rw [tripleMatch_eq_of_keyOf sid cid d x y hk.symm]
  exact hfree y hy

theorem find?_triple_isSome_iff (sid cid : Int) (d : DateV) (l : List AttendanceRec) :
    (l.find? (tripleMatch sid cid d)).isSome ↔ (sid, cid, d) ∈ l.map keyOf := by
  rw [List.find?_isSome]
  constructor
  · rintro ⟨x, hx, hp⟩
    rw [tripleMatch_iff] at hp
    exact hp ▸ List.mem_map_of_mem keyOf hx
  · intro h
    obtain ⟨x, hx, hk⟩ := List.mem_map.mp h
    exact ⟨x, hx, (tripleMatch_iff sid cid d x).mpr hk⟩

theorem mutAgree_applyUpd (e : EntryData) (user : Int) (now : Nat) (r : AttendanceRec) :
    MutAgree (applyUpd e user now r) r :=
  ⟨rfl, rfl, rfl, rfl⟩

/-- The two session databases agree everywhere except possibly on the mutable
fields of the first record whose triple matches `sid` for the batch's class
and date. -/
def AgreeDB (c : BulkCtx) (sid : Int) (db1 db2 : DB) : Prop :=
  db1.students = db2.students ∧ db1.classes = db2.classes ∧ db1.nextId = db2.nextId ∧
  ∃ a r1 r2 b,
    db1.attendances = a ++ r1 :: b ∧ db2.attendances = a ++ r2 :: b ∧
    tripleMatch sid c.cid c.d r1 = true ∧ tripleMatch sid c.cid c.d r2 = true ∧
    MutAgree r1 r2 ∧ ∀ x ∈ a, tripleMatch sid c.cid c.d x = false

theorem agree_collapse (c : BulkCtx) (sid : Int) (db1 db2 : DB) (e2 : EntryData)
    (hsid : e2.student_id = some sid) (hmem : sid ∈ db1.students)
    (h : AgreeDB c sid db1 db2) : stepDB c db1 e2 = stepDB c db2 e2 := by
  obtain ⟨hs, hc, hn, a, r1, r2, b, h1, h2, hp1, hp2, hmut, hfree⟩ := h
  have hf1 : db1.attendances.find? (tripleMatch sid c.cid c.d) = some r1 := by
    rw [h1]
    exact find?_prefix_free _ a b r1 hfree hp1
  have hf2 : db2.attendances.find? (tripleMatch sid c.cid c.d) = some r2 := by
    rw [h2]
    exact find?_prefix_free _ a b r2 hfree hp2
  have hmem2 : sid ∈ db2.students := hs ▸ hmem
  have hu1 : updateFirst (tripleMatch sid c.cid c.d) (applyUpd e2 c.user c.now)
      db1.attendances = a ++ applyUpd e2 c.user c.now r1 :: b := by
    rw [h1]
    exact updateFirst_prefix_free _ _ a b r1 hfree hp1
  have hu2 : updateFirst (tripleMatch sid c.cid c.d) (applyUpd e2 c.user c.now)
      db2.attendances = a ++ applyUpd e2 c.user c.now r2 :: b := by
    rw [h2]
    exact updateFirst_prefix_free _ _ a b r2 hfree hp2
  have hval : applyUpd e2 c.user c.now r1 = applyUpd e2 c.user c.now r2 :=
    applyUpd_congr e2 c.user c.now r1 r2 hmut
  rw [stepDB_att_update c db1 e2 sid r1 hsid hmem hf1,
      stepDB_att_update c db2 e2 sid r2 hsid hmem2 hf2, hu1, hu2, hval, hs, hc, hn]

theorem agree_preserved (c : BulkCtx) (sid : Int) (db1 db2 : DB) (e2 : EntryData)
    (hne : e2.student_id ≠ some sid) (h : AgreeDB c sid db1 db2) :
    AgreeDB c sid (stepDB c db1 e2) (stepDB c db2 e2) := by
  obtain ⟨hs, hc, hn, a, r1, r2, b, h1, h2, hp1, hp2, hmut, hfree⟩ := h
  cases hsid2 : e2.student_id with
  | none =>
    have k1 : stepDB c db1 e2 = db1 := by simp [stepDB, hsid2]
    have k2 : stepDB c db2 e2 = db2 := by simp [stepDB, hsid2]
    rw [k1, k2]
    exact ⟨hs, hc, hn, a, r1, r2, b, h1, h2, hp1, hp2, hmut, hfree⟩
  | some sid2 =>
    have hss : sid2 ≠ sid := fun hh => hne (by rw [hsid2, hh])
    by_cases hmem : sid2 ∈ db1.students
    · have hmem2 : sid2 ∈ db2.students := hs ▸ hmem
      have hp2r1 : tripleMatch sid2 c.cid c.d r1 = false :=
        tripleMatch_ne_student sid2 sid c.cid c.d r1 hss hp1
      have hp2r2 : tripleMatch sid2 c.cid c.d r2 = false :=
        tripleMatch_ne_student sid2 sid c.cid c.d r2 hss hp2
      have hfcong : db1.attendances.find? (tripleMatch sid2 c.cid c.d) =
          db2.attendances.find? (tripleMatch sid2 c.cid c.d) := by
        rw [h1, h2]
        exact find?_middle_congr _ a b r1 r2 hp2r1 hp2r2
      cases hfind : db2.attendances.find? (tripleMatch sid2 c.cid c.d) with
      | some q =>
        have hfind1 : db1.attendances.find? (tripleMatch sid2 c.cid c.d) = some q :=
          hfcong.trans hfind
        rw [stepDB_att_update c db1 e2 sid2 q hsid2 hmem hfind1,
            stepDB_att_update c db2 e2 sid2 q hsid2 hmem2 hfind]
        refine ⟨hs, hc, hn, ?_⟩
        by_cases hfa : (a.find? (tripleMatch sid2 c.cid c.d)).isSome
        · refine ⟨updateFirst (tripleMatch sid2 c.cid c.d) (applyUpd e2 c.user c.now) a,
            r1, r2, b, ?_, ?_, hp1, hp2, hmut, ?_⟩
          · show updateFirst _ _ db1.attendances = _
            rw [h1, updateFirst_append_split, if_pos hfa]
          · show updateFirst _ _ db2.attendances = _
            rw [h2, updateFirst_append_split, if_pos hfa]
          · exact free_updateFirst sid c.cid c.d _ _
              (fun y => keyOf_applyUpd e2 c.user c.now y) a hfree
        · refine ⟨a, r1, r2,
            updateFirst (tripleMatch sid2 c.cid c.d) (applyUpd e2 c.user c.now) b,
            ?_, ?_, hp1, hp2, hmut, hfree⟩
          · show updateFirst _ _ db1.attendances = _
            rw [h1, updateFirst_append_split, if_neg hfa,
              updateFirst_cons_neg _ _ _ _ (by rw [hp2r1]; simp)]
          · show updateFirst _ _ db2.attendances = _
            rw [h2, updateFirst_append_split, if_neg hfa,
              updateFirst_cons_neg _ _ _ _ (by rw [hp2r2]; simp)]
      | none =>
        have hfind1 : db1.attendances.find? (tripleMatch sid2 c.cid c.d) = none :=
          hfcong.trans hfind
        rw [stepDB_att_insert c db1 e2 sid2 hsid2 hmem hfind1,
            stepDB_att_insert c db2 e2 sid2 hsid2 hmem2 hfind]
        refine ⟨hs, hc, ?_, a, r1, r2,
          b ++ [newRec db2.nextId sid2 c.cid c.d (e2.present.getD true) e2.notes c.user c.now],
          ?_, ?_, hp1, hp2, hmut, hfree⟩
        · show db1.nextId + 1 = db2.nextId + 1
          rw [hn]
        · show db1.attendances ++
            [newRec db1.nextId sid2 c.cid c.d (e2.present.getD true) e2.notes c.user c.now] = _
          rw [h1, hn]
          simp
        · show db2.attendances ++
            [newRec db2.nextId sid2 c.cid c.d (e2.present.getD true) e2.notes c.user c.now] = _
          rw [h2]
          simp
    · have hmem2 : sid2 ∉ db2.students := hs ▸ hmem
      have k1 : stepDB c db1 e2 = db1 := by simp [stepDB, hsid2, hmem]
      have k2 : stepDB c db2 e2 = db2 := by simp [stepDB, hsid2, hmem2]
      rw [k1, k2]
      exact ⟨hs, hc, hn, a, r1, r2, b, h1, h2, hp1, hp2, hmut, hfree⟩

theorem agree_foldl (c : BulkCtx) (sid : Int) (s : List EntryData) :
    (∃ e2 ∈ s, e2.student_id = some sid) →
    ∀ db1 db2, sid ∈ db1.students → AgreeDB c sid db1 db2 →
      s.foldl (stepDB c) db1 = s.foldl (stepDB c) db2 := by
  induction s with
  | nil =>
    rintro ⟨e2, he2, _⟩
    exact absurd he2 (List.not_mem_nil e2)
  | cons e2 s' ih =>
    intro hwit db1 db2 hmem h
    rw [List.foldl_cons, List.foldl_cons]
    by_cases hsid2 : e2.student_id = some sid
    · rw [agree_collapse c sid db1 db2 e2 hsid2 hmem h]
    · have hwit' : ∃ e3 ∈ s', e3.student_id = some sid := by
        obtain ⟨e3, he3, hp3⟩ := hwit
        rcases List.mem_cons.mp he3 with h3 | h3
        · exact absurd (h3 ▸ hp3) hsid2
        · exact ⟨e3, h3, hp3⟩
      exact ih hwit' _ _ (by rw [stepDB_students]; exact hmem)
        (agree_preserved c sid db1 db2 e2 hsid2 h)

theorem foldl_stepDB_restart (c : BulkCtx) (s : List EntryData) :
    ∀ (p : List EntryData) (db : DB),
      s.foldl (stepDB c) ((p ++ s).foldl (stepDB c) db) = (p ++ s).foldl (stepDB c) db := by
  induction s with
  | nil =>
    intro p db
    rfl
  | cons e s' ih =>
    intro p db
    have hassoc : p ++ e :: s' = (p ++ [e]) ++ s' := by simp
    have hGs : s'.foldl (stepDB c) ((p ++ e :: s').foldl (stepDB c) db) =
        (p ++ e :: s').foldl (stepDB c) db := by
      rw [hassoc]
      exact ih (p ++ [e]) db
    set G := (p ++ e :: s').foldl (stepDB c) db with hG
    rw [List.foldl_cons]
    cases hsid : e.student_id with
    | none =>
      have he : stepDB c G e = G := by simp [stepDB, hsid]
      rw [he]
      exact hGs
    | some sid =>
      by_cases hmem : sid ∈ db.students
      · have hmemG : sid ∈ G.students := by
          rw [hG, foldl_stepDB_students]
          exact hmem
        by_cases hwit : ∃ e2 ∈ s', e2.student_id = some sid
        · have hfixH : FixedAt c e sid (stepDB c (p.foldl (stepDB c) db) e) :=
            stepDB_makes_fixed c _ e sid hsid (by rw [foldl_stepDB_students]; exact hmem)
          have hkey : (sid, c.cid, c.d) ∈
              (stepDB c (p.foldl (stepDB c) db) e).attendances.map keyOf := by
            obtain ⟨r, hr, _⟩ := hfixH
            refine (find?_triple_isSome_iff sid c.cid c.d _).mp ?_
            rw [hr]
            rfl
          have hkeyG : (sid, c.cid, c.d) ∈ G.attendances.map keyOf := by
            rw [hG, List.foldl_append, List.foldl_cons]
            exact foldl_stepDB_keys_mono c s' _ _ hkey
          have hsomeG : (G.attendances.find? (tripleMatch sid c.cid c.d)).isSome := by
            rw [find?_triple_isSome_iff]
            exact hkeyG
          obtain ⟨r0, hr0⟩ := Option.isSome_iff_exists.mp hsomeG
          have hstep := stepDB_att_update c G e sid r0 hsid hmemG hr0
          obtain ⟨a, b, hdecomp, hfree⟩ := find?_decomp _ G.attendances r0 hr0
          have hp0 : tripleMatch sid c.cid c.d r0 = true := List.find?_some hr0
          have hagree : AgreeDB c sid (stepDB c G e) G := by
            rw [hstep]
            refine ⟨rfl, rfl, rfl, a, applyUpd e c.user c.now r0, r0, b, ?_, hdecomp, ?_,
              hp0, mutAgree_applyUpd e c.user c.now r0, hfree⟩
            · show updateFirst _ _ G.attendances = _
              rw [hdecomp]
              exact updateFirst_prefix_free _ _ a b r0 hfree hp0
            · rw [tripleMatch_applyUpd]
              exact hp0
          have heq := agree_foldl c sid s' hwit (stepDB c G e) G
            (by rw [stepDB_students]; exact hmemG) hagree
          rw [heq]
          exact hGs
        · push_neg at hwit
          have hfixH : FixedAt c e sid (stepDB c (p.foldl (stepDB c) db) e) :=
            stepDB_makes_fixed c _ e sid hsid (by rw [foldl_stepDB_students]; exact hmem)
          have hfixG : FixedAt c e sid G := by
            rw [hG, List.foldl_append, List.foldl_cons]
            exact foldl_keeps_fixed c s' e sid hwit _ hfixH
          rw [stepDB_fixed_id c G e sid hsid hfixG]
          exact hGs
      · have hmemG : sid ∉ G.students := by
          rw [hG, foldl_stepDB_students]
          exact hmem
        have he : stepDB c G e = G := by simp [stepDB, hsid, hmemG]
        rw [he]
        exact hGs

/-- C2: resubmitting a bulk batch — same class, date, entries, acting user
and recording instant — is idempotent on the store: the database after the
second submission is exactly the database after the first, so the record
count for the class/date and every attribute value are unchanged. (A second
submission at a later instant differs only in the freshly stamped
`recorded_at`/`recorded_by` audit fields it overwrites.) -/
theorem bulk_resubmit_idempotent (req : BulkRequest) (user : Int) (now : Nat) (db : DB) :
    (create_bulk_attendance req user now true
        ((create_bulk_attendance req user now true db).1)).1 =
      (create_bulk_attendance req user now true db).1 := by
  cases hc : req.class_id with
  | none => simp [create_bulk_attendance, hc]
  | some cid =>
    cases hd : req.date with
    | none => simp [create_bulk_attendance, hc, hd]
    | some ds =>
      cases he : req.attendances with
      | none => simp [create_bulk_attendance, hc, hd, he]
      | some es =>
        cases hp : parseDate ds with
        | none => simp [create_bulk_attendance, hc, hd, he, hp]
        | some d =>
          by_cases hcl : cid ∈ db.classes
          · have hgen : ∀ db2 : DB, cid ∈ db2.classes →
                (create_bulk_attendance req user now true db2).1 =
                  es.foldl (stepDB ⟨cid, d, user, now⟩) db2 := by
              intro db2 hcl2
              simp [create_bulk_attendance, hc, hd, he, hp, hcl2, runEntries,
                foldl_stepFull_db]
            have hcl1 : cid ∈ (es.foldl (stepDB ⟨cid, d, user, now⟩) db).classes := by
              rw [foldl_stepDB_classes]
              exact hcl
            rw [hgen db hcl, hgen _ hcl1]
            exact foldl_stepDB_restart ⟨cid, d, user, now⟩ es [] db
          · have h1 : create_bulk_attendance req user now true db = (db, .classNotFound) := by
              simp [create_bulk_attendance, hc, hd, he, hp, hcl]
            simp [h1, create_bulk_attendance, hc, hd, he, hp, hcl]
